import Mathlib

/-!
# Drop-payload resolution pipeline of `main.cpp`

A shallow embedding of `CDropTarget` (format negotiation, payload decoding,
8.3 path fixing, metadata formatting) together with theorems about it.

Conventions of the embedding

* `std::wstring` is a list of characters (`WString`); one list element stands
  for one `wchar_t`.  A `std::wstring` may hold embedded `L'\0'` characters,
  so reading it through `c_str()` is modelled by `c_str`, which stops at the
  first NUL.
* Every call into the operating system is a field of `Env` (or of the dragged
  `DataObject`): the code is a deterministic function of those answers.
* `ConsoleLog` only writes to stdout and is left out.
-/

namespace DragDrop

/-! ## Wide strings -/

/-- A `std::wstring`: the sequence of its `wchar_t` elements. -/
abbrev WString := List Char

/-- The terminator `L'\0'`. -/
def NUL : Char := Char.ofNat 0

/-- What a reader of the NUL-terminated buffer `s.c_str()` / `s.data()` sees:
the characters before the first `L'\0'`. -/
def c_str (s : WString) : WString := s.takeWhile (fun c => c != NUL)

/-- Model of `std::wstring::starts_with`. -/
def starts_with (s p : WString) : Bool := p.isPrefixOf s

/-- Model of `std::wstring::ends_with`. -/
def ends_with (s p : WString) : Bool := p.isSuffixOf s

/-- The literal `L"\\\\?\\"`, i.e. the four characters `\\?\`. -/
def LONG_PREFIX : WString := ['\\', '\\', '?', '\\']

/-- The literal `L" "`. -/
def SPACE : WString := [' ']

/-- `MAX_PATH`. -/
def MAX_PATH : Nat := 260

/-- `std::wstring(n, L'\0')`. -/
def zeros (n : Nat) : WString := List.replicate n NUL

/-- The contents of a buffer of `n` zero characters after a callee stored the
characters `written` at its start (nothing is stored past the capacity). -/
def store (n : Nat) (written : WString) : WString :=
  (written ++ zeros n).take n

/-! ## Collaborators -/

/-- A shell item identifier list; its bytes are never inspected by the code. -/
abbrev PIDL := List Nat

/-- The answers of the operating system. -/
structure Env where
  /-- The static `IsLongPathAwareEnabled`, computed once at start-up. -/
  IsLongPathAwareEnabled : Bool
  /-- The value (a `DWORD`) of `GetLongPathNameW(p, nullptr, 0)`. -/
  GetLongPathNameW_size : WString → Nat
  /-- The characters `GetLongPathNameW(p, buf, n)` stores into `buf`. -/
  GetLongPathNameW_fill : WString → Nat → WString
  /-- The call `SHGetPathFromIDListEx(pidl, buf, n, GPFIDL_DEFAULT)`: `none` when it
  returns FALSE, otherwise the characters it stored into `buf`. -/
  SHGetPathFromIDListEx : PIDL → Nat → Option WString
  /-- The call `ILCombine(folder, item)`; `none` is a null result. -/
  ILCombine : PIDL → PIDL → Option PIDL
  /-- The call `GetFileAttributesExW(p, ..)`: `none` when it fails, otherwise
  `(nFileSizeLow, nFileSizeHigh)`. -/
  GetFileAttributesExW : WString → Option (Nat × Nat)

/-! ## `m_ResolveToLongPath` (lines 136-154) -/

/-- The `DWORD needed` of `m_ResolveToLongPath`. -/
def needed (env : Env) (path : WString) : Nat :=
  env.GetLongPathNameW_size (c_str path)

/-- The local `result` of `m_ResolveToLongPath` after lines 149-151: a buffer of
`needed` zeros, filled by the second `GetLongPathNameW` call, resized to
`needed - 1`. -/
def resolved (env : Env) (path : WString) : WString :=
  (store (needed env path)
    (env.GetLongPathNameW_fill (c_str path) (needed env path))).take (needed env path - 1)

/-- The function `CDropTarget::m_ResolveToLongPath`. -/
def m_ResolveToLongPath (env : Env) (path : WString) : WString :=
  if path.isEmpty then path
  else if needed env path = path.length + 1 then path
  else if needed env path = 0 then
    (if ends_with path SPACE then LONG_PREFIX ++ path else path)
  else
    let result := resolved env path
    if env.IsLongPathAwareEnabled || decide (result.length < MAX_PATH) then result
    else LONG_PREFIX ++ result

/-! ## `m_GetPathFromPIDL` (lines 157-174) -/

/-- The `for (DWORD bufferSize : { ... })` loop of `m_GetPathFromPIDL`, run over the
capacities still to be tried; the value is the local `result` when the loop is
left.  On success the buffer of `bufferSize` zeros holds what the shell stored
and is resized to `wcslen(result.data())`; on failure `result = {}`. -/
def pidlLoop (env : Env) (pidl : PIDL) : List Nat → WString
  | [] => []
  | bufferSize :: rest =>
    match env.SHGetPathFromIDListEx pidl bufferSize with
    | some written => c_str (store bufferSize written)
    | none => pidlLoop env pidl rest

/-- The `if` of lines 170-172, applied to the local `result`. -/
def trailingSpaceRule (result : WString) : WString :=
  if ends_with result SPACE && !starts_with result LONG_PREFIX then LONG_PREFIX ++ result
  else result

/-- The function `CDropTarget::m_GetPathFromPIDL`. -/
def m_GetPathFromPIDL (env : Env) (pidl : PIDL) : WString :=
  trailingSpaceRule (pidlLoop env pidl [512, 4096, 32768])

/-! ## `m_CollectDroppedFiles` (lines 88-133) -/

/-- A locked `HDROP`: for each index `i < count`, the return value of
`DragQueryFileW(hDrop, i, szPath, MAX_PATH)` and the characters of the `i`-th
file name. -/
abbrev HDROP := List (Nat × WString)

/-- A locked `CIDA`: the folder identifier `aoffset[0]` and the child
identifiers `aoffset[1..cidl]`. -/
structure IDA where
  folder : PIDL
  items : List PIDL

/-- The dragged `IDataObject`.  For `GetData` the outer `none` is a failed call
and the inner `none` a null `GlobalLock`. -/
structure DataObject where
  /-- Whether `QueryGetData(&feHDrop) == S_OK`. -/
  QueryGetData_HDROP : Bool
  /-- Whether `QueryGetData(&feSHIDL) == S_OK`. -/
  QueryGetData_SHIDL : Bool
  /-- The call `GetData(&feHDrop, &stg)`. -/
  GetData_HDROP : Option (Option HDROP)
  /-- The call `GetData(&feSHIDL, &stg)`. -/
  GetData_SHIDL : Option (Option IDA)

/-- The array `szPath` read as a string: `DragQueryFileW` copies at most
`MAX_PATH - 1` characters and a terminator into the zeroed array. -/
def szPath (name : WString) : WString :=
  c_str (store MAX_PATH (name.take (MAX_PATH - 1)))

/-- One iteration of the loop of lines 102-107. -/
def hdropStep (env : Env) (files : List WString) (entry : Nat × WString) : List WString :=
  if entry.1 ≠ 0 then files ++ [m_ResolveToLongPath env (szPath entry.2)] else files

/-- One iteration of the loop of lines 118-127. -/
def shidlStep (env : Env) (folder : PIDL) (files : List WString) (item : PIDL) :
    List WString :=
  match env.ILCombine folder item with
  | some pidlFull =>
    let path := m_GetPathFromPIDL env pidlFull
    if !path.isEmpty then files ++ [path] else files
  | none => files

/-- The function `CDropTarget::m_CollectDroppedFiles`. -/
def m_CollectDroppedFiles (env : Env) (obj : DataObject) : List WString :=
  match obj.GetData_HDROP with
  | some stg =>
    match stg with
    | some hDrop => hDrop.foldl (hdropStep env) []
    | none => []
  | none =>
    match obj.GetData_SHIDL with
    | some stg =>
      match stg with
      | some pIda => pIda.items.foldl (shidlStep env pIda.folder) []
      | none => []
    | none => []

/-! ## `m_FormatFileSizeW` (lines 204-210) -/

/-- The text of `std::format(L"{}", n)` for an unsigned integer. -/
def decimal (n : Nat) : WString := Nat.toDigits 10 n

/-- The value of `static_cast<double>(size)`: `size` rounded to a 53-bit
significand, ties to even.  The value is again an integer. -/
def toDouble (n : Nat) : Nat :=
  if n < 2 ^ 53 then n
  else
    let e := Nat.log2 n - 52
    let q := n / 2 ^ e
    let r := n % 2 ^ e
    if 2 * r < 2 ^ e then q * 2 ^ e
    else if 2 * r = 2 ^ e then (q + q % 2) * 2 ^ e
    else (q + 1) * 2 ^ e

/-- The number of tenths printed by `{:.1f}` for the double `x / 2 ^ k`
(dividing a double by a power of two is exact): `10 * x / 2 ^ k` rounded to
the nearest integer, ties to even. -/
def tenths (x k : Nat) : Nat :=
  let q := 10 * x / 2 ^ k
  let r := 10 * x % 2 ^ k
  if 2 * r < 2 ^ k then q
  else if 2 * r = 2 ^ k then q + q % 2
  else q + 1

/-- The text printed for a number of tenths: integer part, point, one digit. -/
def showTenths (t : Nat) : WString := decimal (t / 10) ++ ['.'] ++ decimal (t % 10)

/-- The text of `std::format(L"{:.1f}", static_cast<double>(size) / 2 ^ k)`. -/
def format_1f (size k : Nat) : WString := showTenths (tenths (toDouble size) k)

/-- The function `CDropTarget::m_FormatFileSizeW`. -/
def m_FormatFileSizeW (size : Nat) : WString :=
  if size = 0 then "0 bytes (0 bytes)".toList
  else if size < 1024 then decimal size ++ " bytes (".toList ++ decimal size ++ " bytes)".toList
  else if size < 1024 * 1024 then
    format_1f size 10 ++ " KB (".toList ++ decimal size ++ " bytes)".toList
  else if size < 1024 * 1024 * 1024 then
    format_1f size 20 ++ " MB (".toList ++ decimal size ++ " bytes)".toList
  else
    format_1f size 30 ++ " GB (".toList ++ decimal size ++ " bytes)".toList

/-! ## `m_AppendFileInfo` and `m_HandleFilepaths` (lines 176-202) -/

/-- The string starting one past `wcsrchr(s, L'\\')`; `none` when `wcsrchr`
returns null. -/
def wcsrchr_next : WString → Option WString
  | [] => none
  | c :: cs =>
    match wcsrchr_next cs with
    | some rest => some rest
    | none => if c = '\\' then some cs else none

/-- The local `size.QuadPart` of `m_AppendFileInfo`. -/
def QuadPart (env : Env) (path : WString) : Nat :=
  match env.GetFileAttributesExW (c_str path) with
  | some fad => fad.1 % 2 ^ 32 + (fad.2 % 2 ^ 32) * 2 ^ 32
  | none => 0

/-- The local `name` of `m_AppendFileInfo`. -/
def fileName (path : WString) : WString :=
  match wcsrchr_next (c_str path) with
  | some rest => rest
  | none => c_str path

/-- The function `CDropTarget::m_AppendFileInfo`: the value of `text` afterwards. -/
def m_AppendFileInfo (env : Env) (text : WString) (path : WString) : WString :=
  text ++ ("Name: \t".toList ++ fileName path ++ "\r\n".toList
    ++ "Path: \t".toList ++ path ++ "\r\n".toList
    ++ "Size: \t".toList ++ m_FormatFileSizeW (QuadPart env path) ++ "\r\n".toList
    ++ "Length:\t".toList ++ decimal path.length ++ " chars\r\n\r\n".toList)

/-- The literal `L"Drag one or more files here..."`. -/
def PLACEHOLDER : WString := "Drag one or more files here...".toList

/-- The local `text` of `m_HandleFilepaths` after its loop. -/
def buildText (env : Env) (filepaths : List WString) : WString :=
  filepaths.foldl (m_AppendFileInfo env) []

/-- The function `CDropTarget::m_HandleFilepaths`: the string passed to
`SetWindowTextW`. -/
def m_HandleFilepaths (env : Env) (filepaths : List WString) : WString :=
  let text := buildText env filepaths
  if text.isEmpty then PLACEHOLDER else c_str text

/-! ## The `IDropTarget` methods (lines 61-84) -/

/-- The values written to `*pdwEffect`. -/
inductive DROPEFFECT where
  | NONE
  | COPY
  deriving DecidableEq

/-- The mutable state a drag session touches: the member `m_bAcceptFormat` and
the text of the edit control `IDC_EDIT`. -/
structure State where
  m_bAcceptFormat : Bool
  windowText : WString

/-- The method `CDropTarget::DragEnter`: new state and `*pdwEffect`. -/
def DragEnter (obj : DataObject) (st : State) : State × DROPEFFECT :=
  let accept := obj.QueryGetData_HDROP || obj.QueryGetData_SHIDL
  ({ st with m_bAcceptFormat := accept },
    if accept then DROPEFFECT.COPY else DROPEFFECT.NONE)

/-- The method `CDropTarget::DragOver`. -/
def DragOver (st : State) : State × DROPEFFECT :=
  (st, if st.m_bAcceptFormat then DROPEFFECT.COPY else DROPEFFECT.NONE)

/-- The method `CDropTarget::DragLeave`. -/
def DragLeave (st : State) : State :=
  { st with m_bAcceptFormat := false }

/-- The method `CDropTarget::Drop`: new state and the final `*pdwEffect`
(written `NONE` on entry, `COPY` after the pipeline ran). -/
def Drop (env : Env) (obj : DataObject) (st : State) : State × DROPEFFECT :=
  let files := m_CollectDroppedFiles env obj
  let shown := m_HandleFilepaths env files
  ({ st with m_bAcceptFormat := false, windowText := shown }, DROPEFFECT.COPY)

/-! ## Derived notions used in the statements -/

/-- What one file-list entry adds to `files` in the loop of lines 102-107. -/
def entryPath (env : Env) (entry : Nat × WString) : Option WString :=
  if entry.1 = 0 then none else some (m_ResolveToLongPath env (szPath entry.2))

/-- What one child identifier adds to `files` in the loop of lines 118-127. -/
def itemPath (env : Env) (folder item : PIDL) : Option WString :=
  match env.ILCombine folder item with
  | some pidlFull =>
    if m_GetPathFromPIDL env pidlFull = [] then none else some (m_GetPathFromPIDL env pidlFull)
  | none => none

/-- The text `v` is the value `x / 2 ^ k` shown with one decimal: `v` prints a
number of tenths `t` with `t / 10` nearest to `x / 2 ^ k`, an exact tie being
resolved to the even `t`. -/
def IsOneDecimal (x k : Nat) (v : WString) : Prop :=
  ∃ t : Nat, v = decimal (t / 10) ++ ['.'] ++ decimal (t % 10) ∧
    20 * x ≤ (2 * t + 1) * 2 ^ k ∧ 2 * t * 2 ^ k ≤ 20 * x + 2 ^ k ∧
    (20 * x = (2 * t + 1) * 2 ^ k → t % 2 = 0) ∧
    (20 * x + 2 ^ k = 2 * t * 2 ^ k → t % 2 = 0)

/-- The number `d` is `n` converted to double: `n` itself below `2 ^ 53`;
otherwise, with `e` the number of bits of `n` beyond 53, a multiple `m * 2 ^ e`
with `m ≤ 2 ^ 53` nearest to `n`, an exact tie being resolved to the even `m`. -/
def IsDoubleOf (n d : Nat) : Prop :=
  (n < 2 ^ 53 ∧ d = n) ∨
  ∃ e m : Nat, 1 ≤ e ∧ 2 ^ (52 + e) ≤ n ∧ n < 2 ^ (53 + e) ∧
    d = m * 2 ^ e ∧ m ≤ 2 ^ 53 ∧
    2 * n ≤ 2 * d + 2 ^ e ∧ 2 * d ≤ 2 * n + 2 ^ e ∧
    (2 * n = 2 * d + 2 ^ e → m % 2 = 0) ∧ (2 * d = 2 * n + 2 ^ e → m % 2 = 0)

/-- A size of about 8 PiB whose quotient by `1024 ^ 3` is `8388608.7499...`. -/
def bigSize : Nat := 9007200060047359

/-- The record of one path in the text of `m_HandleFilepaths` with the given
name and size texts. -/
def record (name path size : WString) : WString :=
  "Name: \t".toList ++ name ++ "\r\n".toList
    ++ "Path: \t".toList ++ path ++ "\r\n".toList
    ++ "Size: \t".toList ++ size ++ "\r\n".toList
    ++ "Length:\t".toList ++ decimal path.length ++ " chars\r\n\r\n".toList

/-! ## Concrete collaborators used to evaluate the code -/

/-- An operating system whose long-path query answers `size` for the path `p`
(and fails for every other path), the second call storing `fill`. -/
def envWith (aware : Bool) (p : WString) (size : Nat) (fill : WString) : Env where
  IsLongPathAwareEnabled := aware
  GetLongPathNameW_size := fun q => if q = p then size else 0
  GetLongPathNameW_fill := fun _ _ => fill
  SHGetPathFromIDListEx := fun _ _ => none
  ILCombine := fun _ _ => none
  GetFileAttributesExW := fun _ => none

/-- An operating system whose shell lookup fails at capacity 512 and stores
`C:\long` at every other capacity, for every identifier except `[0]`, which it
never resolves; `ILCombine` appends the child to the folder. -/
def envShell : Env where
  IsLongPathAwareEnabled := false
  GetLongPathNameW_size := fun _ => 0
  GetLongPathNameW_fill := fun _ _ => []
  SHGetPathFromIDListEx := fun pidl n =>
    if pidl = [0] ∨ n = 512 then none else some "C:\\long".toList
  ILCombine := fun folder item => some (folder ++ item)
  GetFileAttributesExW := fun _ => none

/-- A data object that offers neither format and whose `GetData` fails for both. -/
def objNoFormat : DataObject where
  QueryGetData_HDROP := false
  QueryGetData_SHIDL := false
  GetData_HDROP := none
  GetData_SHIDL := none

/-- A data object carrying only a shell identifier list with the given children
of the empty folder identifier. -/
def objShell (items : List PIDL) : DataObject where
  QueryGetData_HDROP := false
  QueryGetData_SHIDL := true
  GetData_HDROP := none
  GetData_SHIDL := some (some { folder := [], items := items })

/-- An operating system that knows the size 2048 of `C:\a.txt` and of no other
file. -/
def envAttr : Env where
  IsLongPathAwareEnabled := false
  GetLongPathNameW_size := fun _ => 0
  GetLongPathNameW_fill := fun _ _ => []
  SHGetPathFromIDListEx := fun _ _ => none
  ILCombine := fun _ _ => none
  GetFileAttributesExW := fun p => if p = "C:\\a.txt".toList then some (2048, 0) else none

/-- The prefixed 8.3 path `\\?\C:\AAAAAA~1\BBBBBB~1`. -/
def shortPrefixed : WString := "\\\\?\\C:\\AAAAAA~1\\BBBBBB~1".toList

/-- The long form of `shortPrefixed`: the prefix, `C:\`, a directory name of 200
letters `a`, a backslash and a file name of 59 letters `b` (267 characters). -/
def longPrefixed : WString :=
  LONG_PREFIX ++ "C:\\".toList ++ List.replicate 200 'a' ++ ['\\'] ++ List.replicate 59 'b'

/-- A data object carrying a file list with the single entry `b`. -/
def objFile : DataObject where
  QueryGetData_HDROP := true
  QueryGetData_SHIDL := false
  GetData_HDROP := some (some [(1, ['b'])])
  GetData_SHIDL := none

/-- The state of a fresh window: nothing accepted, the placeholder shown. -/
def stInitial : State where
  m_bAcceptFormat := false
  windowText := PLACEHOLDER

/-- The state after the file `b` was dragged into the fresh window and dropped. -/
def stShown : State :=
  (Drop envAttr objFile (DragEnter objFile stInitial).1).1

/-! ## Basic facts -/

theorem length_store (n : Nat) (w : WString) : (store n w).length = n := by
  simp [store, zeros]

theorem length_resolved (env : Env) (p : WString) :
    (resolved env p).length = needed env p - 1 := by
  simp [resolved, length_store]

theorem starts_with_prefix_append (s : WString) :
    starts_with (LONG_PREFIX ++ s) LONG_PREFIX = true := by
  simp [starts_with, LONG_PREFIX]

theorem resolved_ne_nil (env : Env) (p : WString) (h0 : needed env p ≠ 0)
    (h1 : needed env p ≠ 1) : resolved env p ≠ [] := by
  intro h
  have hl := length_resolved env p
  rw [h] at hl
  simp at hl
  omega

theorem foldl_hdropStep (env : Env) (hDrop : HDROP) (files : List WString) :
    hDrop.foldl (hdropStep env) files = files ++ hDrop.filterMap (entryPath env) := by
  induction hDrop generalizing files with
  | nil => simp
  | cons e es ih =>
    rw [List.foldl_cons, ih]
    by_cases h : e.1 = 0
    · simp [hdropStep, entryPath, h]
    · simp [hdropStep, entryPath, h]

theorem foldl_shidlStep (env : Env) (folder : PIDL) (items : List PIDL)
    (files : List WString) :
    items.foldl (shidlStep env folder) files = files ++ items.filterMap (itemPath env folder) := by
  induction items generalizing files with
  | nil => simp
  | cons i is ih =>
    rw [List.foldl_cons, ih]
    cases hc : env.ILCombine folder i with
    | none => simp [shidlStep, itemPath, hc]
    | some full =>
      by_cases h : m_GetPathFromPIDL env full = []
      · simp [shidlStep, itemPath, hc, h]
      · simp [shidlStep, itemPath, hc, h]

theorem collect_hdrop (env : Env) (obj : DataObject) (hDrop : HDROP)
    (h : obj.GetData_HDROP = some (some hDrop)) :
    m_CollectDroppedFiles env obj = hDrop.filterMap (entryPath env) := by
  simp [m_CollectDroppedFiles, h, foldl_hdropStep]

theorem collect_shidl (env : Env) (obj : DataObject) (pIda : IDA)
    (h1 : obj.GetData_HDROP = none) (h2 : obj.GetData_SHIDL = some (some pIda)) :
    m_CollectDroppedFiles env obj = pIda.items.filterMap (itemPath env pIda.folder) := by
  simp [m_CollectDroppedFiles, h1, h2, foldl_shidlStep]

/-! ## The path normalizer -/

/-- Claim C9, counterexample: for the non-empty path `a` and a long-path query
that answers the required length 1, `m_ResolveToLongPath` returns the empty
string. -/
theorem C9_counterexample :
    m_ResolveToLongPath (envWith false ['a'] 1 []) ['a'] = [] ∧ (['a'] : WString) ≠ [] := by
  decide

/-- Claim C9, amended: for every raw path, either flag value and every outcome
of the long-path query, `m_ResolveToLongPath` returns the empty string exactly
when the path is empty or the query answers the required length 1; so a
non-empty path yields a non-empty result for every answer other than 1, the
failure answer 0 included. -/
theorem C9_empty_iff (env : Env) (p : WString) :
    m_ResolveToLongPath env p = [] ↔ p = [] ∨ needed env p = 1 := by
  unfold m_ResolveToLongPath
  by_cases hp : p = []
  · simp [hp]
  · have hne : p.isEmpty = false := by
      cases p with
      | nil => exact absurd rfl hp
      | cons c cs => rfl
    by_cases h1 : needed env p = 1
    · have hl : 1 ≠ p.length + 1 := by
        have := List.length_pos.2 hp
        omega
      have hr : resolved env p = [] := by
        apply List.eq_nil_of_length_eq_zero
        rw [length_resolved, h1]
      simp [hne, h1, hl, hr, MAX_PATH]
    · have hr : needed env p ≠ 0 → resolved env p ≠ [] :=
        fun h0 => resolved_ne_nil env p h0 h1
      dsimp only
      split_ifs <;> simp_all [LONG_PREFIX]

/-- Claim C10: when the long-path query answers `len(p) + 1` for `p`, normalizing
twice gives the same path as normalizing once. -/
theorem C10_idempotent (env : Env) (p : WString)
    (h : needed env p = p.length + 1) :
    m_ResolveToLongPath env (m_ResolveToLongPath env p) = m_ResolveToLongPath env p := by
  have hp : m_ResolveToLongPath env p = p := by
    simp [m_ResolveToLongPath, h]
  rw [hp]
  exact hp

/-- Witness of `C10_idempotent`: the path `C:\a`, which the query reports as
already long-form. -/
theorem C10_idempotent_witness :
    needed (envWith false "C:\\a".toList 5 []) "C:\\a".toList = "C:\\a".toList.length + 1 ∧
      m_ResolveToLongPath (envWith false "C:\\a".toList 5 [])
          (m_ResolveToLongPath (envWith false "C:\\a".toList 5 []) "C:\\a".toList)
        = m_ResolveToLongPath (envWith false "C:\\a".toList 5 []) "C:\\a".toList :=
  ⟨by decide, C10_idempotent _ _ (by decide)⟩

theorem resolve_failure_trailing_space (env : Env) (p : WString) (hp : p ≠ [])
    (h0 : needed env p = 0)
    (hs : ends_with (m_ResolveToLongPath env p) SPACE = true) :
    starts_with (m_ResolveToLongPath env p) LONG_PREFIX = true := by
  have hne : p.isEmpty = false := by
    cases p with
    | nil => exact absurd rfl hp
    | cons c cs => rfl
  have hl : (0 : Nat) ≠ p.length + 1 := by omega
  have he : m_ResolveToLongPath env p
      = if ends_with p SPACE then LONG_PREFIX ++ p else p := by
    simp [m_ResolveToLongPath, hne, h0, hl]
  rw [he] at hs ⊢
  by_cases hsp : ends_with p SPACE = true
  · rw [if_pos hsp]
    exact starts_with_prefix_append p
  · rw [if_neg hsp] at hs
    exact absurd hs hsp

theorem resolve_at_ceiling (env : Env) (p : WString) (hp : p ≠ [])
    (haware : env.IsLongPathAwareEnabled = false)
    (h1 : needed env p ≠ p.length + 1) (h0 : needed env p ≠ 0)
    (hlen : MAX_PATH ≤ (resolved env p).length) :
    m_ResolveToLongPath env p = LONG_PREFIX ++ resolved env p := by
  have hne : p.isEmpty = false := by
    cases p with
    | nil => exact absurd rfl hp
    | cons c cs => rfl
  have hlt : ¬ (resolved env p).length < MAX_PATH := by omega
  simp [m_ResolveToLongPath, hne, h0, h1, haware, hlt]

/-- Claim C1, the code at the failing input: the short path `C:\FOO~1` whose
long form `C:\foo ` ends in a space is returned as `C:\foo `, without the
extended-length prefix, for either value of the flag; so is the path `C:\foo `
itself when the query reports it as already long-form. -/
theorem C1_success_paths_skip_trailing_space_rule :
    (∀ aware : Bool,
      m_ResolveToLongPath (envWith aware "C:\\FOO~1".toList 8 "C:\\foo ".toList)
          "C:\\FOO~1".toList = "C:\\foo ".toList) ∧
    (∀ aware : Bool,
      m_ResolveToLongPath (envWith aware "C:\\foo ".toList 8 []) "C:\\foo ".toList
        = "C:\\foo ".toList) ∧
    ends_with "C:\\foo ".toList SPACE = true ∧
    starts_with "C:\\foo ".toList LONG_PREFIX = false := by
  decide

/-- Claim C7, counterexample: with the flag enabled, the two-character path
`a ` (which does not begin with the prefix) and a failing query give a result
that begins with the prefix; and a resolved form that itself begins with the
prefix is returned as it is. -/
theorem C7_counterexample :
    ((envWith true "a ".toList 0 []).IsLongPathAwareEnabled = true ∧
      "a ".toList.length < MAX_PATH ∧
      starts_with "a ".toList LONG_PREFIX = false ∧
      (resolved (envWith true "a ".toList 0 []) "a ".toList).length < MAX_PATH ∧
      starts_with (m_ResolveToLongPath (envWith true "a ".toList 0 []) "a ".toList)
        LONG_PREFIX = true) ∧
    ((envWith true ['a'] 6 "\\\\?\\b".toList).IsLongPathAwareEnabled = true ∧
      (['a'] : WString).length < MAX_PATH ∧
      starts_with ['a'] LONG_PREFIX = false ∧
      (resolved (envWith true ['a'] 6 "\\\\?\\b".toList) ['a']).length < MAX_PATH ∧
      starts_with (m_ResolveToLongPath (envWith true ['a'] 6 "\\\\?\\b".toList) ['a'])
        LONG_PREFIX = true) := by
  decide

/-- Claim C7, amended: with the flag enabled, for a raw path shorter than 260
characters that does not begin with the prefix and a resolved form that is
shorter than 260 characters and does not begin with the prefix either, a
returned path that does not end in a space does not begin with the prefix; and
when the query fails and the raw path ends in a space, the returned path is the
prefix followed by the raw path. -/
theorem C7_no_prefix_when_aware (env : Env) (p : WString)
    (haware : env.IsLongPathAwareEnabled = true)
    (hlen : p.length < MAX_PATH)
    (hp : starts_with p LONG_PREFIX = false)
    (hrlen : (resolved env p).length < MAX_PATH)
    (hr : starts_with (resolved env p) LONG_PREFIX = false) :
    (ends_with (m_ResolveToLongPath env p) SPACE = false →
      starts_with (m_ResolveToLongPath env p) LONG_PREFIX = false) ∧
    (needed env p = 0 → ends_with p SPACE = true →
      m_ResolveToLongPath env p = LONG_PREFIX ++ p) := by
  unfold m_ResolveToLongPath
  by_cases he : p = []
  · subst he
    simp [ends_with, SPACE, starts_with, LONG_PREFIX]
  · have hne : p.isEmpty = false := by
      cases p with
      | nil => exact absurd rfl he
      | cons c cs => rfl
    by_cases h1 : needed env p = p.length + 1
    · have h0 : needed env p ≠ 0 := by omega
      simp [hne, h1, hp]
    · by_cases h0 : needed env p = 0
      · have hl : (0 : Nat) ≠ p.length + 1 := by omega
        by_cases hs : ends_with p SPACE = true
        · have hs2 : ends_with (LONG_PREFIX ++ p) SPACE = true := by
            simp only [ends_with, List.isSuffixOf_iff_suffix] at hs ⊢
            exact hs.trans (List.suffix_append _ _)
          simp [hne, h0, hl, hs, hs2]
        · simp [hne, h0, hl, hs, hp]
      · simp [hne, h1, h0, haware, hr]

/-- Witness of `C7_no_prefix_when_aware`: the short path `C:\A~1` resolved to
`C:\abcd` (answer 8) with the flag enabled. -/
theorem C7_no_prefix_when_aware_witness :
    (envWith true "C:\\A~1".toList 8 "C:\\abcd".toList).IsLongPathAwareEnabled = true ∧
    "C:\\A~1".toList.length < MAX_PATH ∧
    starts_with "C:\\A~1".toList LONG_PREFIX = false ∧
    (resolved (envWith true "C:\\A~1".toList 8 "C:\\abcd".toList) "C:\\A~1".toList).length
      < MAX_PATH ∧
    starts_with (resolved (envWith true "C:\\A~1".toList 8 "C:\\abcd".toList) "C:\\A~1".toList)
      LONG_PREFIX = false ∧
    ends_with
      (m_ResolveToLongPath (envWith true "C:\\A~1".toList 8 "C:\\abcd".toList) "C:\\A~1".toList)
      SPACE = false ∧
    starts_with
      (m_ResolveToLongPath (envWith true "C:\\A~1".toList 8 "C:\\abcd".toList) "C:\\A~1".toList)
      LONG_PREFIX = false :=
  ⟨by decide, by decide, by decide, by decide, by decide, by decide,
    (C7_no_prefix_when_aware _ _ (by decide) (by decide) (by decide) (by decide)
      (by decide)).1 (by decide)⟩

set_option maxRecDepth 100000 in
/-- Claim C2, the code at the failing input: with the flag disabled, the short
path `\\?\C:\AAAAAA~1\BBBBBB~1`, whose long form (267 characters) already
begins with the prefix, is returned with the prefix twice. -/
theorem C2_prefix_repeated :
    longPrefixed.length = 267 ∧
    starts_with longPrefixed LONG_PREFIX = true ∧
    (envWith false shortPrefixed 268 longPrefixed).IsLongPathAwareEnabled = false ∧
    resolved (envWith false shortPrefixed 268 longPrefixed) shortPrefixed = longPrefixed ∧
    m_ResolveToLongPath (envWith false shortPrefixed 268 longPrefixed) shortPrefixed
      = LONG_PREFIX ++ longPrefixed ∧
    m_ResolveToLongPath (envWith false shortPrefixed 268 longPrefixed) shortPrefixed
      ≠ longPrefixed := by
  decide

/-! ## The drop session -/

set_option maxRecDepth 100000 in
/-- Claim C3, counterexample: in a window showing the record of a dropped file
`b`, `DragEnter` with a data object that offers neither format reports `NONE`,
but the following `Drop` reports `COPY` and replaces the displayed record by
the placeholder. -/
theorem C3_counterexample :
    stShown.windowText = record ['b'] ['b'] "0 bytes (0 bytes)".toList ∧
    (DragEnter objNoFormat stShown).2 = DROPEFFECT.NONE ∧
    (Drop envAttr objNoFormat (DragEnter objNoFormat stShown).1).2 = DROPEFFECT.COPY ∧
    (Drop envAttr objNoFormat (DragEnter objNoFormat stShown).1).1.windowText = PLACEHOLDER ∧
    (Drop envAttr objNoFormat (DragEnter objNoFormat stShown).1).1.windowText
      ≠ stShown.windowText := by
  decide

/-- Claim C3, amended: for `DragEnter` with a data object that offers neither
format, followed by `Drop`: `DragEnter` reports `NONE`, clears the accepted flag
and leaves the displayed text alone; `Drop` runs the decode/format pipeline,
reports `COPY`, displays the text built from the decoded list (the placeholder
when retrieval of both formats fails) and leaves the accepted flag false. -/
theorem C3_drop_after_rejected_enter (env : Env) (obj : DataObject) (st : State)
    (h1 : obj.QueryGetData_HDROP = false) (h2 : obj.QueryGetData_SHIDL = false) :
    (DragEnter obj st).2 = DROPEFFECT.NONE ∧
    (DragEnter obj st).1.m_bAcceptFormat = false ∧
    (DragEnter obj st).1.windowText = st.windowText ∧
    (Drop env obj (DragEnter obj st).1).2 = DROPEFFECT.COPY ∧
    (Drop env obj (DragEnter obj st).1).1.windowText
      = m_HandleFilepaths env (m_CollectDroppedFiles env obj) ∧
    (obj.GetData_HDROP = none → obj.GetData_SHIDL = none →
      (Drop env obj (DragEnter obj st).1).1.windowText = PLACEHOLDER) ∧
    (Drop env obj (DragEnter obj st).1).1.m_bAcceptFormat = false := by
  refine ⟨?_, ?_, ?_, ?_, ?_, ?_, ?_⟩
  · simp [DragEnter, h1, h2]
  · simp [DragEnter, h1, h2]
  · simp [DragEnter]
  · simp [Drop]
  · simp [Drop]
  · intro g1 g2
    simp [Drop, m_CollectDroppedFiles, g1, g2, m_HandleFilepaths, buildText]
  · simp [Drop]

/-- Witness of `C3_drop_after_rejected_enter`: the data object without any
format, dragged over a window showing `x`. -/
theorem C3_drop_after_rejected_enter_witness :
    objNoFormat.QueryGetData_HDROP = false ∧ objNoFormat.QueryGetData_SHIDL = false ∧
    (Drop (envWith false [] 0 []) objNoFormat
      (DragEnter objNoFormat { m_bAcceptFormat := true, windowText := ['x'] }).1).2
      = DROPEFFECT.COPY :=
  ⟨rfl, rfl,
    (C3_drop_after_rejected_enter (envWith false [] 0 []) objNoFormat
      { m_bAcceptFormat := true, windowText := ['x'] } rfl rfl).2.2.2.1⟩

/-! ## The payload decoder -/

/-- Claim C6: the file-list payload decides the result whenever its retrieval
succeeded, and the identifier list is used only when that retrieval failed;
the result is empty when both retrievals fail or the payload used holds no
items, and for an empty result the text handed to the window is the
placeholder. -/
theorem C6_decode_order_and_empty (env : Env) (obj : DataObject) :
    (∀ hDrop, obj.GetData_HDROP = some (some hDrop) →
      m_CollectDroppedFiles env obj = hDrop.filterMap (entryPath env)) ∧
    (obj.GetData_HDROP = some none → m_CollectDroppedFiles env obj = []) ∧
    (∀ pIda, obj.GetData_HDROP = none → obj.GetData_SHIDL = some (some pIda) →
      m_CollectDroppedFiles env obj = pIda.items.filterMap (itemPath env pIda.folder)) ∧
    (obj.GetData_HDROP = none → obj.GetData_SHIDL = some none →
      m_CollectDroppedFiles env obj = []) ∧
    (obj.GetData_HDROP = none → obj.GetData_SHIDL = none →
      m_CollectDroppedFiles env obj = []) ∧
    (obj.GetData_HDROP = some (some []) → m_CollectDroppedFiles env obj = []) ∧
    (∀ folder, obj.GetData_HDROP = none →
      obj.GetData_SHIDL = some (some { folder := folder, items := [] }) →
      m_CollectDroppedFiles env obj = []) ∧
    (m_CollectDroppedFiles env obj = [] →
      m_HandleFilepaths env (m_CollectDroppedFiles env obj) = PLACEHOLDER) := by
  refine ⟨?_, ?_, ?_, ?_, ?_, ?_, ?_, ?_⟩
  · intro hDrop h
    exact collect_hdrop env obj hDrop h
  · intro h
    simp [m_CollectDroppedFiles, h]
  · intro pIda h1 h2
    exact collect_shidl env obj pIda h1 h2
  · intro h1 h2
    simp [m_CollectDroppedFiles, h1, h2]
  · intro h1 h2
    simp [m_CollectDroppedFiles, h1, h2]
  · intro h
    simp [m_CollectDroppedFiles, h]
  · intro folder h1 h2
    simp [m_CollectDroppedFiles, h1, h2]
  · intro h
    rw [h]
    simp [m_HandleFilepaths, buildText]

/-- Witness of `C6_decode_order_and_empty`: a data object whose retrieval fails
for both formats decodes to nothing and shows the placeholder. -/
theorem C6_decode_order_and_empty_witness :
    objNoFormat.GetData_HDROP = none ∧ objNoFormat.GetData_SHIDL = none ∧
    m_CollectDroppedFiles envShell objNoFormat = [] ∧
    m_HandleFilepaths envShell (m_CollectDroppedFiles envShell objNoFormat) = PLACEHOLDER :=
  ⟨rfl, rfl, (C6_decode_order_and_empty envShell objNoFormat).2.2.2.2.1 rfl rfl,
    (C6_decode_order_and_empty envShell objNoFormat).2.2.2.2.2.2.2
      ((C6_decode_order_and_empty envShell objNoFormat).2.2.2.2.1 rfl rfl)⟩

/-- Claim C5: `m_GetPathFromPIDL` takes the string resolved at capacity 512 when
that lookup succeeds, else the one resolved at 4096, else the one resolved at
32768, each read up to its first terminator and given the prefix exactly when
it ends in a space and does not begin with the prefix; it is empty when all
three lookups fail.  `m_CollectDroppedFiles` keeps, in order, the non-empty
results of the children, so a child whose lookups all fail adds nothing and
the others are kept.  A lookup failing at 512 and succeeding at 4096 yields
the item once. -/
theorem C5_buffer_growing_lookup (env : Env) (pidl : PIDL) :
    (∀ w s, env.SHGetPathFromIDListEx pidl 512 = some w → s = c_str (store 512 w) →
      m_GetPathFromPIDL env pidl =
        if ends_with s SPACE = true ∧ starts_with s LONG_PREFIX = false
        then LONG_PREFIX ++ s else s) ∧
    (∀ w s, env.SHGetPathFromIDListEx pidl 512 = none →
      env.SHGetPathFromIDListEx pidl 4096 = some w → s = c_str (store 4096 w) →
      m_GetPathFromPIDL env pidl =
        if ends_with s SPACE = true ∧ starts_with s LONG_PREFIX = false
        then LONG_PREFIX ++ s else s) ∧
    (∀ w s, env.SHGetPathFromIDListEx pidl 512 = none →
      env.SHGetPathFromIDListEx pidl 4096 = none →
      env.SHGetPathFromIDListEx pidl 32768 = some w → s = c_str (store 32768 w) →
      m_GetPathFromPIDL env pidl =
        if ends_with s SPACE = true ∧ starts_with s LONG_PREFIX = false
        then LONG_PREFIX ++ s else s) ∧
    (env.SHGetPathFromIDListEx pidl 512 = none →
      env.SHGetPathFromIDListEx pidl 4096 = none →
      env.SHGetPathFromIDListEx pidl 32768 = none →
      m_GetPathFromPIDL env pidl = [] ∧
      ∀ folder item, env.ILCombine folder item = some pidl → itemPath env folder item = none) ∧
    (∀ obj pIda, obj.GetData_HDROP = none → obj.GetData_SHIDL = some (some pIda) →
      m_CollectDroppedFiles env obj = pIda.items.filterMap (itemPath env pIda.folder)) ∧
    (∀ folder item, env.ILCombine folder item = some pidl → m_GetPathFromPIDL env pidl ≠ [] →
      itemPath env folder item = some (m_GetPathFromPIDL env pidl)) ∧
    m_CollectDroppedFiles envShell (objShell [[0], [1]]) = ["C:\\long".toList] := by
  refine ⟨?_, ?_, ?_, ?_, ?_, ?_, ?_⟩
  · intro w s h hs
    subst hs
    simp [m_GetPathFromPIDL, pidlLoop, h, trailingSpaceRule]
  · intro w s h1 h2 hs
    subst hs
    simp [m_GetPathFromPIDL, pidlLoop, h1, h2, trailingSpaceRule]
  · intro w s h1 h2 h3 hs
    subst hs
    simp [m_GetPathFromPIDL, pidlLoop, h1, h2, h3, trailingSpaceRule]
  · intro h1 h2 h3
    have he : m_GetPathFromPIDL env pidl = [] := by
      simp [m_GetPathFromPIDL, pidlLoop, h1, h2, h3, trailingSpaceRule, ends_with, SPACE]
    refine ⟨he, ?_⟩
    intro folder item hc
    simp [itemPath, hc, he]
  · intro obj pIda h1 h2
    exact collect_shidl env obj pIda h1 h2
  · intro folder item hc hne
    simp [itemPath, hc, hne]
  · decide

/-- Witness of `C5_buffer_growing_lookup`: an identifier whose lookup fails at
capacity 512 and stores `C:\long` at capacity 4096. -/
theorem C5_buffer_growing_lookup_witness :
    envShell.SHGetPathFromIDListEx [1] 512 = none ∧
    envShell.SHGetPathFromIDListEx [1] 4096 = some "C:\\long".toList ∧
    "C:\\long".toList = c_str (store 4096 "C:\\long".toList) ∧
    m_GetPathFromPIDL envShell [1] =
      (if ends_with "C:\\long".toList SPACE = true ∧
          starts_with "C:\\long".toList LONG_PREFIX = false
        then LONG_PREFIX ++ "C:\\long".toList else "C:\\long".toList) :=
  ⟨by decide, by decide, by decide,
    (C5_buffer_growing_lookup envShell [1]).2.1 "C:\\long".toList "C:\\long".toList
      (by decide) (by decide) (by decide)⟩

/-! ## The metadata formatter -/

theorem tenths_nearest (x k : Nat) :
    20 * x ≤ (2 * tenths x k + 1) * 2 ^ k ∧ 2 * tenths x k * 2 ^ k ≤ 20 * x + 2 ^ k ∧
    (20 * x = (2 * tenths x k + 1) * 2 ^ k → tenths x k % 2 = 0) ∧
    (20 * x + 2 ^ k = 2 * tenths x k * 2 ^ k → tenths x k % 2 = 0) := by
  have hP : 0 < 2 ^ k := Nat.pow_pos (by decide)
  have hdm : 2 ^ k * (10 * x / 2 ^ k) + 10 * x % 2 ^ k = 10 * x := Nat.div_add_mod _ _
  have hr : 10 * x % 2 ^ k < 2 ^ k := Nat.mod_lt _ hP
  unfold tenths
  dsimp only
  generalize 2 ^ k = P at *
  generalize 10 * x / P = q at *
  generalize 10 * x % P = r at *
  have e1 : (2 * q + 1) * P = 2 * (P * q) + P := by ring
  have e2 : 2 * q * P = 2 * (P * q) := by ring
  have e3 : (2 * (q + 1) + 1) * P = 2 * (P * q) + 3 * P := by ring
  have e4 : 2 * (q + 1) * P = 2 * (P * q) + 2 * P := by ring
  have e5 : (2 * (q + 0) + 1) * P = 2 * (P * q) + P := by ring
  have e6 : 2 * (q + 0) * P = 2 * (P * q) := by ring
  generalize P * q = A at *
  split_ifs with h1 h2
  · rw [e1, e2]
    omega
  · rcases Nat.mod_two_eq_zero_or_one q with hq | hq
    · rw [hq, e5, e6]
      omega
    · rw [hq, e3, e4]
      omega
  · rw [e3, e4]
    omega

theorem toDouble_exact (n : Nat) (h : n < 2 ^ 53) : toDouble n = n := by
  unfold toDouble
  rw [if_pos h]

theorem toDouble_near (n : Nat) :
    2 ^ 53 * (toDouble n - n) ≤ n ∧ 2 ^ 53 * (n - toDouble n) ≤ n := by
  unfold toDouble
  by_cases h : n < 2 ^ 53
  · rw [if_pos h]
    simp
  · rw [if_neg h]
    have hn : n ≠ 0 := by
      intro h0
      rw [h0] at h
      exact h (by norm_num)
    have hL1 : 2 ^ n.log2 ≤ n := Nat.log2_self_le hn
    have hL2 : 53 ≤ n.log2 := (Nat.le_log2 hn).2 (by omega)
    have hPL : 2 ^ 52 * 2 ^ (n.log2 - 52) = 2 ^ n.log2 := by
      rw [← pow_add]
      congr 1
      omega
    have hP : 0 < 2 ^ (n.log2 - 52) := Nat.pow_pos (by decide)
    have hdm : 2 ^ (n.log2 - 52) * (n / 2 ^ (n.log2 - 52)) + n % 2 ^ (n.log2 - 52) = n :=
      Nat.div_add_mod _ _
    have hr : n % 2 ^ (n.log2 - 52) < 2 ^ (n.log2 - 52) := Nat.mod_lt _ hP
    dsimp only
    generalize 2 ^ (n.log2 - 52) = P at *
    generalize 2 ^ n.log2 = X at *
    generalize n / P = q at *
    generalize n % P = r at *
    have e1 : q * P = P * q := by ring
    have e2 : (q + 1) * P = P * q + P := by ring
    have e3 : (q + 0) * P = P * q := by ring
    generalize P * q = A at *
    norm_num at hPL ⊢
    split_ifs with h1 h2
    · rw [e1]
      omega
    · rcases Nat.mod_two_eq_zero_or_one q with hq | hq
      · rw [hq, e3]
        omega
      · rw [hq, e2]
        omega
    · rw [e2]
      omega

theorem isOneDecimal_format_1f (n k : Nat) : IsOneDecimal (toDouble n) k (format_1f n k) :=
  ⟨tenths (toDouble n) k, rfl, tenths_nearest (toDouble n) k⟩

theorem round_to_multiple (n P q r : Nat) (hP : 0 < P) (hdm : P * q + r = n) (hr : r < P) :
    ∃ m : Nat,
      (if 2 * r < P then q * P else if 2 * r = P then (q + q % 2) * P else (q + 1) * P)
        = m * P ∧ m ≤ q + 1 ∧
      2 * n ≤ 2 * (m * P) + P ∧ 2 * (m * P) ≤ 2 * n + P ∧
      (2 * n = 2 * (m * P) + P → m % 2 = 0) ∧ (2 * (m * P) = 2 * n + P → m % 2 = 0) := by
  have e1 : q * P = P * q := by ring
  have e2 : (q + 1) * P = P * q + P := by ring
  have e3 : (q + 0) * P = P * q := by ring
  split_ifs with h1 h2
  · refine ⟨q, rfl, by omega, ?_⟩
    rw [e1]
    generalize P * q = A at *
    omega
  · rcases Nat.mod_two_eq_zero_or_one q with hq | hq
    · refine ⟨q + q % 2, rfl, by omega, ?_⟩
      rw [hq, e3]
      generalize P * q = A at *
      omega
    · refine ⟨q + q % 2, rfl, by omega, ?_⟩
      rw [hq, e2]
      generalize P * q = A at *
      omega
  · refine ⟨q + 1, rfl, by omega, ?_⟩
    rw [e2]
    generalize P * q = A at *
    omega

theorem isDoubleOf_toDouble (n : Nat) : IsDoubleOf n (toDouble n) := by
  unfold toDouble
  by_cases h : n < 2 ^ 53
  · rw [if_pos h]
    exact Or.inl ⟨h, rfl⟩
  · rw [if_neg h]
    have hn : n ≠ 0 := by
      intro h0
      rw [h0] at h
      exact h (by norm_num)
    have hL1 : 2 ^ n.log2 ≤ n := Nat.log2_self_le hn
    have hL2 : 53 ≤ n.log2 := (Nat.le_log2 hn).2 (by omega)
    have hL3 : n < 2 ^ (n.log2 + 1) := Nat.lt_log2_self
    have he1 : 52 + (n.log2 - 52) = n.log2 := by omega
    have he2 : 53 + (n.log2 - 52) = n.log2 + 1 := by omega
    have hP : 0 < 2 ^ (n.log2 - 52) := Nat.pow_pos (by decide)
    have hdm : 2 ^ (n.log2 - 52) * (n / 2 ^ (n.log2 - 52)) + n % 2 ^ (n.log2 - 52) = n :=
      Nat.div_add_mod _ _
    have hr : n % 2 ^ (n.log2 - 52) < 2 ^ (n.log2 - 52) := Nat.mod_lt _ hP
    have hq : n / 2 ^ (n.log2 - 52) < 2 ^ 53 := by
      rw [Nat.div_lt_iff_lt_mul hP, ← pow_add, he2]
      exact hL3
    obtain ⟨m, hm, hmq, hb1, hb2, ht1, ht2⟩ :=
      round_to_multiple n (2 ^ (n.log2 - 52)) (n / 2 ^ (n.log2 - 52))
        (n % 2 ^ (n.log2 - 52)) hP hdm hr
    dsimp only
    rw [hm]
    refine Or.inr ⟨n.log2 - 52, m, by omega, ?_, ?_, rfl, by omega, hb1, hb2, ht1, ht2⟩
    · rw [he1]
      exact hL1
    · rw [he2]
      exact hL3

theorem nearest_unique (X P t u : Nat) (hP : 0 < P)
    (b1 : X ≤ (2 * t + 1) * P) (b2 : 2 * t * P ≤ X + P)
    (e1 : X = (2 * t + 1) * P → t % 2 = 0) (e2 : X + P = 2 * t * P → t % 2 = 0)
    (c1 : X ≤ (2 * u + 1) * P) (c2 : 2 * u * P ≤ X + P)
    (f1 : X = (2 * u + 1) * P → u % 2 = 0) (f2 : X + P = 2 * u * P → u % 2 = 0) :
    t = u := by
  have key : ∀ a b : Nat, a < b → X ≤ (2 * a + 1) * P → 2 * b * P ≤ X + P →
      (X = (2 * a + 1) * P → a % 2 = 0) → (X + P = 2 * b * P → b % 2 = 0) → False := by
    intro a b hab ha hb ta tb
    have h1 : (a + 1) * P ≤ b * P := Nat.mul_le_mul_right P hab
    have r1 : (2 * a + 1) * P = 2 * (a * P) + P := by ring
    have r2 : 2 * b * P = 2 * (b * P) := by ring
    have r3 : (a + 1) * P = a * P + P := by ring
    rw [r1] at ha ta
    rw [r2] at hb tb
    rw [r3] at h1
    have hbP : b * P = a * P + P := by omega
    have hb1 : b = a + 1 := by
      have : b * P = (a + 1) * P := by rw [r3]; exact hbP
      exact Nat.eq_of_mul_eq_mul_right hP this
    have ha0 := ta (by omega)
    have hb0 := tb (by omega)
    omega
  rcases Nat.lt_trichotomy t u with h | h | h
  · exact absurd (key t u h b1 c2 e1 f2) id
  · exact h
  · exact absurd (key u t h c1 b2 f1 e2) id

theorem isOneDecimal_unique (x k : Nat) (v w : WString)
    (hv : IsOneDecimal x k v) (hw : IsOneDecimal x k w) : v = w := by
  obtain ⟨t, rfl, b1, b2, e1, e2⟩ := hv
  obtain ⟨u, rfl, c1, c2, f1, f2⟩ := hw
  have : t = u :=
    nearest_unique (20 * x) (2 ^ k) t u (Nat.pow_pos (by decide)) b1 b2 e1 e2 c1 c2 f1 f2
  rw [this]

theorem isDoubleOf_unique (n d d' : Nat) (h : IsDoubleOf n d) (h' : IsDoubleOf n d') :
    d = d' := by
  rcases h with ⟨hn, rfl⟩ | ⟨e, m, he, hlo, hhi, rfl, -, b1, b2, t1, t2⟩
  · rcases h' with ⟨-, rfl⟩ | ⟨e', m', he', hlo', -⟩
    · rfl
    · have : 2 ^ 53 ≤ 2 ^ (52 + e') := Nat.pow_le_pow_right (by decide) (by omega)
      omega
  · rcases h' with ⟨hn', -⟩ | ⟨e', m', he', hlo', hhi', rfl, -, c1, c2, f1, f2⟩
    · have : 2 ^ 53 ≤ 2 ^ (52 + e) := Nat.pow_le_pow_right (by decide) (by omega)
      omega
    · have h1 : 52 + e < 53 + e' :=
        (Nat.pow_lt_pow_iff_right (by decide)).1 (Nat.lt_of_le_of_lt hlo hhi')
      have h2 : 52 + e' < 53 + e :=
        (Nat.pow_lt_pow_iff_right (by decide)).1 (Nat.lt_of_le_of_lt hlo' hhi)
      have hee : e' = e := by omega
      subst hee
      have r : ∀ a : Nat, (2 * a + 1) * 2 ^ e' = 2 * (a * 2 ^ e') + 2 ^ e' := fun a => by ring
      have r2 : ∀ a : Nat, 2 * a * 2 ^ e' = 2 * (a * 2 ^ e') := fun a => by ring
      have : m = m' :=
        nearest_unique (2 * n) (2 ^ e') m m' (Nat.pow_pos (by decide))
          (by rw [r]; exact b1) (by rw [r2]; exact b2)
          (by rw [r]; exact t1) (by rw [r2]; intro hh; exact t2 hh.symm)
          (by rw [r]; exact c1) (by rw [r2]; exact c2)
          (by rw [r]; exact f1) (by rw [r2]; intro hh; exact f2 hh.symm)
      rw [this]

theorem log2_bigSize : Nat.log2 bigSize = 53 := by
  have hn : bigSize ≠ 0 := by decide
  have h1 : 53 ≤ Nat.log2 bigSize := (Nat.le_log2 hn).2 (by decide)
  have h2 : Nat.log2 bigSize < 54 := (Nat.log2_lt hn).2 (by decide)
  omega

theorem toDouble_bigSize : toDouble bigSize = bigSize + 1 := by
  unfold toDouble
  rw [if_neg (by decide), log2_bigSize]
  decide

theorem formatFileSize_bigSize :
    m_FormatFileSizeW bigSize = "8388608.8 GB (9007200060047359 bytes)".toList := by
  have h : m_FormatFileSizeW bigSize
      = showTenths (tenths (toDouble bigSize) 30) ++ " GB (".toList ++ decimal bigSize
        ++ " bytes)".toList := by
    unfold m_FormatFileSizeW format_1f
    rw [if_neg (by decide), if_neg (by decide), if_neg (by decide), if_neg (by decide)]
  rw [h, toDouble_bigSize]
  decide

/-- Claim C4, counterexample: for the 64-bit size 9007200060047359, whose quotient
by `1024 ^ 3` is `8388608.7499...`, the code prints `8388608.8 GB`; no text `v`
that shows this quotient with one decimal fits the text of `m_FormatFileSizeW`. -/
theorem C4_counterexample :
    bigSize < 2 ^ 64 ∧
    m_FormatFileSizeW bigSize = "8388608.8 GB (9007200060047359 bytes)".toList ∧
    ¬ ∃ v : WString,
      m_FormatFileSizeW bigSize
        = v ++ [' '] ++ "GB".toList ++ " (".toList ++ decimal bigSize ++ " bytes)".toList ∧
      IsOneDecimal bigSize 30 v := by
  refine ⟨by decide, formatFileSize_bigSize, ?_⟩
  rintro ⟨v, hv, t, ht, hb1, hb2, -, -⟩
  rw [formatFileSize_bigSize] at hv
  have hs : ("8388608.8 GB (9007200060047359 bytes)".toList : WString)
      = "8388608.8".toList
        ++ ([' '] ++ "GB".toList ++ " (".toList ++ decimal bigSize ++ " bytes)".toList) := by
    decide
  rw [hs] at hv
  simp only [List.append_assoc] at hv
  have hv2 : ("8388608.8".toList : WString) = v := List.append_cancel_right hv
  have htval : t = 83886087 := by
    unfold bigSize at hb1 hb2
    norm_num at hb1 hb2
    omega
  subst htval
  rw [← hv2] at ht
  revert ht
  decide

/-- Claim C4, amended: `m_FormatFileSizeW n` is `<v> <unit> (<n> bytes)` with the
decimal byte count in the parentheses; the unit is `bytes` with `v = n` below
1024, `KB` below 1024^2, `MB` below 1024^3 and `GB` from there on; for `KB` and
`MB` the text `v` shows the quotient of `n` by 1024 or 1024^2 with one decimal
(nearest tenth, ties to even), for `GB` it shows so the quotient by 1024^3 of
`n` converted to double (`n` itself below 2^53, else `n` rounded to 53
significant bits, ties to even); the five boundary values give the texts
listed. -/
theorem C4_format_file_size (n : Nat) :
    (∃ v unit : WString,
      m_FormatFileSizeW n
        = v ++ [' '] ++ unit ++ " (".toList ++ decimal n ++ " bytes)".toList ∧
      ((n < 1024 ∧ unit = "bytes".toList ∧ v = decimal n) ∨
       (1024 ≤ n ∧ n < 1024 ^ 2 ∧ unit = "KB".toList ∧ IsOneDecimal n 10 v) ∨
       (1024 ^ 2 ≤ n ∧ n < 1024 ^ 3 ∧ unit = "MB".toList ∧ IsOneDecimal n 20 v) ∨
       (1024 ^ 3 ≤ n ∧ unit = "GB".toList ∧
          ∃ d : Nat, IsDoubleOf n d ∧ IsOneDecimal d 30 v))) ∧
    m_FormatFileSizeW 0 = "0 bytes (0 bytes)".toList ∧
    m_FormatFileSizeW 1023 = "1023 bytes (1023 bytes)".toList ∧
    m_FormatFileSizeW 1024 = "1.0 KB (1024 bytes)".toList ∧
    m_FormatFileSizeW 1048576 = "1.0 MB (1048576 bytes)".toList ∧
    m_FormatFileSizeW 1073741824 = "1.0 GB (1073741824 bytes)".toList := by
  refine ⟨?_, by decide, by decide, by decide, by decide, by decide⟩
  have hb : (" bytes (".toList : WString) = [' '] ++ "bytes".toList ++ " (".toList := by decide
  have hk : (" KB (".toList : WString) = [' '] ++ "KB".toList ++ " (".toList := by decide
  have hm : (" MB (".toList : WString) = [' '] ++ "MB".toList ++ " (".toList := by decide
  have hg : (" GB (".toList : WString) = [' '] ++ "GB".toList ++ " (".toList := by decide
  by_cases h0 : n = 0
  · subst h0
    exact ⟨decimal 0, "bytes".toList, by decide, Or.inl ⟨by decide, rfl, rfl⟩⟩
  by_cases h1 : n < 1024
  · refine ⟨decimal n, "bytes".toList, ?_, Or.inl ⟨h1, rfl, rfl⟩⟩
    simp only [m_FormatFileSizeW, h0, h1, if_true, if_false, hb, List.append_assoc]
  by_cases h2 : n < 1024 * 1024
  · refine ⟨format_1f n 10, "KB".toList, ?_, Or.inr (Or.inl ⟨by omega, by omega, rfl, ?_⟩)⟩
    · simp only [m_FormatFileSizeW, h0, h1, h2, if_true, if_false, hk, List.append_assoc]
    · have h := isOneDecimal_format_1f n 10
      rwa [toDouble_exact n (by omega)] at h
  by_cases h3 : n < 1024 * 1024 * 1024
  · refine ⟨format_1f n 20, "MB".toList, ?_, Or.inr (Or.inr (Or.inl ⟨by omega, by omega, rfl, ?_⟩))⟩
    · simp only [m_FormatFileSizeW, h0, h1, h2, h3, if_true, if_false, hm, List.append_assoc]
    · have h := isOneDecimal_format_1f n 20
      rwa [toDouble_exact n (by omega)] at h
  · refine ⟨format_1f n 30, "GB".toList, ?_,
      Or.inr (Or.inr (Or.inr ⟨by omega, rfl, toDouble n, isDoubleOf_toDouble n,
        isOneDecimal_format_1f n 30⟩))⟩
    simp only [m_FormatFileSizeW, h0, h1, h2, h3, if_true, if_false, hg, List.append_assoc]

end DragDrop
